import Mathlib

/-!
Verification development for the `contract_deployer` crate.

The Rust sources embedded here (shallowly) are:
  * `src/deployer.rs`  — gas-coin selection, gas merging, publish/setup
    orchestration, signing/verification/submission;
  * `src/transaction.rs` — effects extraction and the success assertion;
  * `src/object_parsers.rs` + `src/publish_result.rs` — classification of
    created objects into the ten-field `PublishResult`.

Network, keystore, compiler and cryptography are external collaborators of
the crate; they appear as explicit function-valued fields of an environment
record (`SuiEnv`), so every operation is a pure, executable Lean function of
that environment.  Machine integers (`u64` balances, budgets) are modelled
as `Nat`: every arithmetic operation performed by the crate on them is
addition of balances, and the crate performs no wrapping arithmetic.
-/

/-- On-chain object identity (`ObjectID`), abstracted to a natural number. -/
abbrev ObjectID := Nat

/-- Transaction/object digest, abstracted to a natural number. -/
abbrev Digest := Nat

/-- An object reference: identity, version, digest (`ObjectRef`). -/
abbrev ObjectRef := ObjectID × Nat × Digest

/-- A Sui address, abstracted. -/
abbrev SuiAddress := Nat

/-- A signature produced by the keystore, abstracted. -/
abbrev Signature := Nat

/-- Error outcomes of the crate.  The Rust code uses `eyre` string errors;
each distinct failure site is given its own constructor, named after the
spec's error taxonomy, carrying the message where the message matters. -/
inductive Err where
  | insufficientResources
  | insufficientInputs (msg : String)
  | signingError (msg : String)
  | verificationError
  | submissionError (msg : String)
  | missingEffects
  | executionFailed (error : String)
  | noPackageObject
  | unexpectedTypeParameter (msg : String)
  | incompleteClassification (field : String)
  | fetchError (msg : String)
  | compileError (msg : String)
  | buildTxError (msg : String)
deriving Repr, DecidableEq

/-- Does an error belong to the spec's `InsufficientInputs` family
(the two merge-time input-count failures in `merge_all_gas`)? -/
def Err.isInsufficientInputs : Err → Bool
  | .insufficientInputs _ => true
  | _ => false

/-- A spendable gas coin (`sui_sdk::rpc_types::Coin`): identity, version,
digest, balance and coin type, as used by `deployer.rs`. -/
structure Coin where
  coin_object_id : ObjectID
  version : Nat
  digest : Digest
  balance : Nat
  coin_type : String
deriving Repr, DecidableEq

/-- `Coin::object_ref()` — the (id, version, digest) reference of a coin. -/
def Coin.object_ref (c : Coin) : ObjectRef := (c.coin_object_id, c.version, c.digest)

/-- Modelled from the spec: the fixed merge-fee-ceiling constant
`MERGE_SUI_GAS_BUDGET` lives in the crate's `constants` module, which is not
among the provided sources.  The spec fixes only that it is a constant
("fee-budget = 2× a fixed merge-fee-ceiling"); its illustrative scenario in
§8 uses the value 10, which we adopt.  No theorem below depends on the value. -/
def MERGE_SUI_GAS_BUDGET : Nat := 10

/-- Modelled from the spec: the fixed publish-fee ceiling
`PUBLISH_PACKAGE_GAS_BUDGET` from the missing `constants` module; the value
is not given by the spec and no theorem depends on it. -/
def PUBLISH_PACKAGE_GAS_BUDGET : Nat := 50

/-- Modelled from the spec: the fixed setup-fee ceiling
`SETUP_PACKAGE_GAS_BUDGET` from the missing `constants` module; the value is
not given by the spec and no theorem depends on it. -/
def SETUP_PACKAGE_GAS_BUDGET : Nat := 50

/-- `Vec::swap_remove(i)`: replace the element at `i` with the last element
and pop the last slot; returns the removed element and the shrunk vector.
Returns `none` exactly when `i` is out of range (where Rust would panic;
call sites below always present an in-range index). -/
def swapRemove {α : Type} (l : List α) (i : Nat) : Option (α × List α) :=
  match l.getLast? with
  | none => none
  | some last =>
    match l[i]? with
    | none => none
    | some x => some (x, (l.set i last).dropLast)

/-- Ascending comparison on coin balances, the key order used by
`gas_coins.sort_unstable_by_key(|c| c.balance)`. -/
def coinLe (a b : Coin) : Prop := a.balance ≤ b.balance

instance : DecidableRel coinLe := fun a b => Nat.decLe a.balance b.balance

instance : IsTotal Coin coinLe := ⟨fun a b => Nat.le_total a.balance b.balance⟩

instance : IsTrans Coin coinLe := ⟨fun _ _ _ h1 h2 => Nat.le_trans h1 h2⟩

/-- `Deployer::find_gas_coin_to_pay_gas_budget` (deployer.rs 66–80), with the
freshly fetched pool of coins passed explicitly: sort ascending by balance,
find the first coin whose balance covers `amount`, `swap_remove` it, and
return it with the remaining coins; error when no coin qualifies.  Rust's
`sort_unstable_by_key` is modelled by insertion sort on the same key; no
claim depends on the order among equal balances, which `sort_unstable` leaves
unspecified anyway. -/
def find_gas_coin_to_pay_gas_budget (coins : List Coin) (amount : Nat) :
    Except Err (Coin × List Coin) :=
  let sorted := coins.insertionSort coinLe
  match sorted.findIdx? (fun c => amount ≤ c.balance) with
  | none => .error .insufficientResources
  | some i =>
    match swapRemove sorted i with
    | none => .error .insufficientResources
    | some (target, rest) => .ok (target, rest)

/-- On-chain execution status of a transaction (`SuiExecutionStatus`). -/
inductive SuiExecutionStatus where
  | success
  | failure (error : String)
deriving Repr, DecidableEq

/-- Reference to an object owned/created by a transaction
(`OwnedObjectRef`; only the identity part is read by the crate). -/
structure OwnedObjectRef where
  object_id : ObjectID
  version : Nat
  digest : Digest
deriving Repr, DecidableEq

/-- `SuiTransactionBlockEffectsV1`, restricted to the fields the crate
reads: the execution status and the created-objects list. -/
structure SuiTransactionBlockEffectsV1 where
  status : SuiExecutionStatus
  created : List OwnedObjectRef
deriving Repr, DecidableEq

/-- `SuiTransactionBlockResponse`: effects are present only when requested
at submission time. -/
structure SuiTransactionBlockResponse where
  effects : Option SuiTransactionBlockEffectsV1
deriving Repr, DecidableEq

/-- `TryIntoEffects::try_into_effects` (transaction.rs 15–22): extract the
V1 effects from a response, failing when the response carries none. -/
def try_into_effects (r : SuiTransactionBlockResponse) :
    Except Err SuiTransactionBlockEffectsV1 :=
  match r.effects with
  | none => .error .missingEffects
  | some effects => .ok effects

/-- `AssertSuccess::assert_success` (transaction.rs 24–37): pass the effects
through unchanged on `Success`, fail with the on-chain error string on
`Failure`. -/
def assert_success (e : SuiTransactionBlockEffectsV1) :
    Except Err SuiTransactionBlockEffectsV1 :=
  match e.status with
  | .success => .ok e
  | .failure error => .error (.executionFailed error)

/-- A call argument of a programmable move call (`CallArg::Object`): either
an owned-object reference or a shared object with version and mutability. -/
inductive CallArg where
  | object_imm_or_owned (ref : ObjectRef)
  | object_shared (id : ObjectID) (initial_shared_version : Nat) (mutable : Bool)
deriving Repr, DecidableEq

/-- One `move_call` appended to the programmable transaction builder:
target package, module, function, type arguments (kept in their textual
form, as the crate only constructs them from strings), arguments. -/
structure MoveCall where
  package : ObjectID
  module_name : String
  function : String
  type_args : List String
  args : List CallArg
deriving Repr, DecidableEq

/-- `TransactionData`: sender, gas payment references, the programmable
transaction (its list of calls), the gas budget and gas price. -/
structure TransactionData where
  sender : SuiAddress
  gas_payment : List ObjectRef
  calls : List MoveCall
  gas_budget : Nat
  gas_price : Nat
deriving Repr, DecidableEq

/-- `VerifiedEnvelope<SenderSignedData, EmptySignInfo>`: transaction data
plus the signature that verification has accepted.  Values of this type are
created only by `verify_tx_data` below. -/
structure VerifiedEnvelope where
  tx_data : TransactionData
  signature : Signature
deriving Repr, DecidableEq

/-- `SuiObjectResponse`, restricted to `object_ref_if_exists()`: `some` the
confirmed reference when the fetched object exists, `none` otherwise. -/
structure SuiObjectResponse where
  object_ref_if_exists : Option ObjectRef
deriving Repr, DecidableEq

/-- The external collaborators of `Deployer` (network client, keystore,
compiler, signature cryptography), plus the deployer's own fields
(`active_address`, the freshly fetched coin pool): everything an operation
of deployer.rs consumes.  Each fallible collaborator call is a
function-valued field returning `Except Err`. -/
structure SuiEnv where
  active_address : SuiAddress
  coins : List Coin
  reference_gas_price : Nat
  sign_secure : TransactionData → Except Err Signature
  verify_ok : TransactionData → Signature → Bool
  execute : VerifiedEnvelope → Except Err SuiTransactionBlockResponse
  fetch_object : ObjectID → Except Err SuiObjectResponse
  compile : Except Err (List ObjectID × List (List Nat))
  build_publish_tx : List (List Nat) → List ObjectID → ObjectID → Nat →
    Except Err TransactionData

/-- `verify_tx_data` (deployer.rs 451–459): re-check the signature against
the intent; only on success does a `VerifiedEnvelope` come into existence. -/
def verify_tx_data (env : SuiEnv) (tx_data : TransactionData) (signature : Signature) :
    Except Err VerifiedEnvelope :=
  if env.verify_ok tx_data signature then .ok ⟨tx_data, signature⟩
  else .error .verificationError

/-- `PublishResult` (publish_result.rs 8–20): the ten classified identities. -/
structure PublishResult where
  package : ObjectID
  lemons_pool : ObjectID
  lemon_registry : ObjectID
  lemon_randomness : ObjectID
  lemon_mint_config : ObjectID
  lemon_treasury : ObjectID
  lemon_cap : ObjectID
  juice_cap : ObjectID
  juice_treasury : ObjectID
  coin_juice_treasury_cap : ObjectID
deriving Repr, DecidableEq

/-- `PublishResultBuilder` (derive_builder): every field optional, `none`
until its setter runs. -/
structure PublishResultBuilder where
  package : Option ObjectID := none
  lemons_pool : Option ObjectID := none
  lemon_registry : Option ObjectID := none
  lemon_randomness : Option ObjectID := none
  lemon_mint_config : Option ObjectID := none
  lemon_treasury : Option ObjectID := none
  lemon_cap : Option ObjectID := none
  juice_cap : Option ObjectID := none
  juice_treasury : Option ObjectID := none
  coin_juice_treasury_cap : Option ObjectID := none
deriving Repr, DecidableEq

/-- Require a builder field to have been set, failing with the
`IncompleteClassification` error naming the field (derive_builder's
`UninitializedField` in its `build`). -/
def reqField (field : String) : Option ObjectID → Except Err ObjectID
  | none => .error (.incompleteClassification field)
  | some v => .ok v

/-- `PublishResultBuilder::build()`: succeeds exactly when all ten fields
were set, checking them in declaration order. -/
def PublishResultBuilder.build (b : PublishResultBuilder) : Except Err PublishResult := do
  let package ← reqField "package" b.package
  let lemons_pool ← reqField "lemons_pool" b.lemons_pool
  let lemon_registry ← reqField "lemon_registry" b.lemon_registry
  let lemon_randomness ← reqField "lemon_randomness" b.lemon_randomness
  let lemon_mint_config ← reqField "lemon_mint_config" b.lemon_mint_config
  let lemon_treasury ← reqField "lemon_treasury" b.lemon_treasury
  let lemon_cap ← reqField "lemon_cap" b.lemon_cap
  let juice_cap ← reqField "juice_cap" b.juice_cap
  let juice_treasury ← reqField "juice_treasury" b.juice_treasury
  let coin_juice_treasury_cap ← reqField "coin_juice_treasury_cap" b.coin_juice_treasury_cap
  return { package := package
         , lemons_pool := lemons_pool
         , lemon_registry := lemon_registry
         , lemon_randomness := lemon_randomness
         , lemon_mint_config := lemon_mint_config
         , lemon_treasury := lemon_treasury
         , lemon_cap := lemon_cap
         , juice_cap := juice_cap
         , juice_treasury := juice_treasury
         , coin_juice_treasury_cap := coin_juice_treasury_cap }

/-- `move_core_types` `TypeTag`: a generic type parameter is either a struct
type signature (module name, type name, its own parameters; the package
address is never inspected by the crate) or some non-struct tag, summarised
by a description string. -/
inductive TypeTag where
  | strct (module_name : String) (type_name : String) (type_params : List TypeTag)
  | nonStruct (descr : String)
deriving Repr

/-- Is a type tag a struct signature (`TypeTag::Struct`)? -/
def TypeTag.isStruct : TypeTag → Bool
  | .strct _ _ _ => true
  | .nonStruct _ => false

/-- `sui_types` `ObjectType`: a created object is either a package or a move
object with a struct type signature. -/
inductive ObjectType where
  | package
  | strct (module_name : String) (type_name : String) (type_params : List TypeTag)
deriving Repr

/-- Is an object the published package (`ObjectType::Package`)? -/
def ObjectType.isPackage : ObjectType → Bool
  | .package => true
  | .strct _ _ _ => false

/-- The `AdminCap` handler of object classification (source file
object_parsers.rs, function name `admin_cap` + "_parser", lines 123–141):
every type parameter must be a struct tag; `ljc::Juice` sets `juice_cap`,
`lemons::Lemons` sets `lemon_cap`, others are skipped. -/
def admin_cap_handler (b : PublishResultBuilder) (id : ObjectID) :
    List TypeTag → Except Err PublishResultBuilder
  | [] => .ok b
  | .strct m n _ :: rest =>
    let b' := if m = "ljc" ∧ n = "Juice" then { b with juice_cap := some id }
      else if m = "lemons" ∧ n = "Lemons" then { b with lemon_cap := some id }
      else b
    admin_cap_handler b' id rest
  | .nonStruct _ :: _ =>
    .error (.unexpectedTypeParameter "AdminCap's type_params must contain only TypeTag::Struct")

/-- The `MintConfig` handler (lines 104–121): struct parameters only;
`lemons::Lemons` sets `lemon_mint_config`. -/
def mint_config_handler (b : PublishResultBuilder) (id : ObjectID) :
    List TypeTag → Except Err PublishResultBuilder
  | [] => .ok b
  | .strct m n _ :: rest =>
    let b' := if m = "lemons" ∧ n = "Lemons" then { b with lemon_mint_config := some id }
      else b
    mint_config_handler b' id rest
  | .nonStruct _ :: _ =>
    .error (.unexpectedTypeParameter "MintConfig's type_params must contain only TypeTag::Struct")

/-- The `Registry` handler (lines 85–102): struct parameters only;
`lemons::Lemons` sets `lemon_registry`. -/
def registry_handler (b : PublishResultBuilder) (id : ObjectID) :
    List TypeTag → Except Err PublishResultBuilder
  | [] => .ok b
  | .strct m n _ :: rest =>
    let b' := if m = "lemons" ∧ n = "Lemons" then { b with lemon_registry := some id }
      else b
    registry_handler b' id rest
  | .nonStruct _ :: _ =>
    .error (.unexpectedTypeParameter "Registry's type_params must contain only TypeTag::Struct")

/-- The `Randomness` handler (lines 66–83): struct parameters only;
`lemons::Lemons` sets `lemon_randomness`. -/
def randomness_handler (b : PublishResultBuilder) (id : ObjectID) :
    List TypeTag → Except Err PublishResultBuilder
  | [] => .ok b
  | .strct m n _ :: rest =>
    let b' := if m = "lemons" ∧ n = "Lemons" then { b with lemon_randomness := some id }
      else b
    randomness_handler b' id rest
  | .nonStruct _ :: _ =>
    .error (.unexpectedTypeParameter "Randomness's type_params must contain only TypeTag::Struct")

/-- The `TreasuryCap` handler (lines 47–64): struct parameters only;
`ljc::LJC` sets `coin_juice_treasury_cap`. -/
def coin_treasury_cap_handler (b : PublishResultBuilder) (id : ObjectID) :
    List TypeTag → Except Err PublishResultBuilder
  | [] => .ok b
  | .strct m n _ :: rest =>
    let b' := if m = "ljc" ∧ n = "LJC" then { b with coin_juice_treasury_cap := some id }
      else b
    coin_treasury_cap_handler b' id rest
  | .nonStruct _ :: _ =>
    .error (.unexpectedTypeParameter "CoinTreasury's type_params must contain only TypeTag::Struct")

/-- The body of the dispatch loop of `process_objects` (object_parsers.rs
25–41): route on (module name, type name), call the type-specific handler or
set the parameter-free fields directly, silently skip unmatched types. -/
def classify_step (b : PublishResultBuilder) (id : ObjectID)
    (module_name type_name : String) (type_params : List TypeTag) :
    Except Err PublishResultBuilder :=
  match module_name, type_name with
  | "admin", "AdminCap" => admin_cap_handler b id type_params
  | "mint_config", "MintConfig" => mint_config_handler b id type_params
  | "registry", "Registry" => registry_handler b id type_params
  | "randomness", "Randomness" => randomness_handler b id type_params
  | "coin", "TreasuryCap" => coin_treasury_cap_handler b id type_params
  | "lemon_pool", "LemonPool" => .ok { b with lemons_pool := some id }
  | "lemons", "Treasury" => .ok { b with lemon_treasury := some id }
  | "ljc", "JuiceTreasury" => .ok { b with juice_treasury := some id }
  | _, _ => .ok b

/-- The dispatch loop of `process_objects` over the non-package records
(object_parsers.rs 17–42).  A package record cannot occur here after the
partition; it is skipped for totality. -/
def process_rest (b : PublishResultBuilder) :
    List (ObjectID × ObjectType) → Except Err PublishResultBuilder
  | [] => .ok b
  | (_, .package) :: rest => process_rest b rest
  | (id, .strct module_name type_name type_params) :: rest =>
    match classify_step b id module_name type_name type_params with
    | .error e => .error e
    | .ok b2 => process_rest b2 rest

/-- `process_objects` (object_parsers.rs 6–45): partition off the
package-typed records and take the last of them (`Vec::pop`), failing with
`NoPackageObject` when there is none; run the dispatch loop over the rest;
finalise the builder. -/
def process_objects (objects : List (ObjectID × ObjectType)) : Except Err PublishResult :=
  let parts := objects.partition (fun x => x.2.isPackage)
  match (parts.1).getLast? with
  | none => .error .noPackageObject
  | some (package_id, _) =>
    match process_rest { package := some package_id } parts.2 with
    | .error e => .error e
    | .ok b => b.build

/-- The join-into-target call built for one source coin inside
`merge_all_gas` (deployer.rs 115–133): `0x2::pay::join` with the SUI coin
type argument and the target's and the source's owned references. -/
def mergeJoinCall (sui_coin_type : String) (target coin : Coin) : MoveCall :=
  { package := 2
  , module_name := "pay"
  , function := "join"
  , type_args := [sui_coin_type]
  , args := [ .object_imm_or_owned target.object_ref
            , .object_imm_or_owned coin.object_ref ] }

/-- The `for coin in resource` loop of `merge_all_gas`: append one join call
per source and accumulate the running balance. -/
def mergeLoop (sui_coin_type : String) (target : Coin) :
    List Coin → List MoveCall × Nat → List MoveCall × Nat
  | [], acc => acc
  | coin :: rest, (calls, ret) =>
    mergeLoop sui_coin_type target rest
      (calls ++ [mergeJoinCall sui_coin_type target coin], ret + coin.balance)

/-- `Deployer::merge_all_gas` (deployer.rs 83–167).  The first component is
the returned value (new balance and target identity); the second collects
every envelope handed to `execute_tx`, in order, so that submission can be
reasoned about. -/
def merge_all_gas (env : SuiEnv) :
    Except Err (Nat × ObjectID) × List VerifiedEnvelope :=
  let gas_budget := MERGE_SUI_GAS_BUDGET * 2
  match find_gas_coin_to_pay_gas_budget env.coins gas_budget with
  | .error e => (.error e, [])
  | .ok (gas_payer, coins_to_merge) =>
    match coins_to_merge with
    | [] =>
      (.error (.insufficientInputs
        "You don't have enough gas coins for merging. You must have one suitable for paying gas, one target coin and resource coins"), [])
    | target :: resource =>
      if resource.isEmpty then
        (.error (.insufficientInputs "You must to have at least one resource coin"), [])
      else
        let built := mergeLoop gas_payer.coin_type target resource ([], target.balance)
        let tx_data : TransactionData :=
          { sender := env.active_address
          , gas_payment := [gas_payer.object_ref]
          , calls := built.1
          , gas_budget := gas_budget
          , gas_price := env.reference_gas_price }
        match env.sign_secure tx_data with
        | .error e => (.error e, [])
        | .ok signature =>
          match verify_tx_data env tx_data signature with
          | .error e => (.error e, [])
          | .ok tx =>
            match env.execute tx with
            | .error e => (.error e, [tx])
            | .ok resp =>
              match try_into_effects resp with
              | .error e => (.error e, [tx])
              | .ok effects =>
                match assert_success effects with
                | .error e => (.error e, [tx])
                | .ok _ => (.ok (built.2, target.coin_object_id), [tx])

/-- `Deployer::publish_package` (deployer.rs 191–230): select a fee payer,
compile, build the publish transaction through the external builder, sign,
verify, submit; return the full response.  Second component: submitted
envelopes. -/
def publish_package (env : SuiEnv) :
    Except Err SuiTransactionBlockResponse × List VerifiedEnvelope :=
  match find_gas_coin_to_pay_gas_budget env.coins PUBLISH_PACKAGE_GAS_BUDGET with
  | .error e => (.error e, [])
  | .ok (gas_payer, _) =>
    match env.compile with
    | .error e => (.error e, [])
    | .ok (published_dependencies, compiled_modules) =>
      match env.build_publish_tx compiled_modules published_dependencies
          gas_payer.coin_object_id PUBLISH_PACKAGE_GAS_BUDGET with
      | .error e => (.error e, [])
      | .ok tx_data =>
        match env.sign_secure tx_data with
        | .error e => (.error e, [])
        | .ok signature =>
          match verify_tx_data env tx_data signature with
          | .error e => (.error e, [])
          | .ok tx =>
            match env.execute tx with
            | .error e => (.error e, [tx])
            | .ok ret => (.ok ret, [tx])

/-- Outcome of an operation that may panic (Rust `unwrap`) in addition to
returning an error. -/
inductive POutcome (α : Type) where
  | ok (a : α)
  | err (e : Err)
  | panicked
deriving Repr, DecidableEq

/-- The await-and-collect loop of `get_objects_references` (deployer.rs
420–424), processing fetch results in request order: a failed fetch is an
error; a fetch whose object does not exist hits
`object_ref_if_exists().unwrap()` and panics. -/
def collect_object_refs (env : SuiEnv) : List ObjectID → POutcome (List ObjectRef)
  | [] => .ok []
  | object_id :: rest =>
    match env.fetch_object object_id with
    | .error e => .err e
    | .ok response =>
      match response.object_ref_if_exists with
      | none => .panicked
      | some r =>
        match collect_object_refs env rest with
        | .ok rs => .ok (r :: rs)
        | .err e => .err e
        | .panicked => .panicked

/-- `Deployer::get_objects_references::<N>` (deployer.rs 400–427): fetch all
requested objects, collect their confirmed references, and
`<[_; N]>::try_from(ret).unwrap()` — a panic when the count differs from
`N`. -/
def get_objects_references (env : SuiEnv) (n : Nat) (object_ids : List ObjectID) :
    POutcome (List ObjectRef) :=
  match collect_object_refs env object_ids with
  | .ok refs => if refs.length = n then .ok refs else .panicked
  | .err e => .err e
  | .panicked => .panicked

/-- `Deployer::setup_package` (deployer.rs 282–388): select a fee payer,
resolve the two object references, build the single `debug_setup` call
(owned `lemon_cap`, shared mutable `lemon_mint_config` at its confirmed
version), sign, verify, submit.  The response of `execute_tx` is discarded:
the function returns `ok` as soon as submission succeeds.  Second
component: submitted envelopes. -/
def setup_package (env : SuiEnv) (publish_result : PublishResult) :
    POutcome Unit × List VerifiedEnvelope :=
  match find_gas_coin_to_pay_gas_budget env.coins SETUP_PACKAGE_GAS_BUDGET with
  | .error e => (.err e, [])
  | .ok (gas_payer, _) =>
    match get_objects_references env 2
        [publish_result.lemon_cap, publish_result.lemon_mint_config] with
    | .err e => (.err e, [])
    | .panicked => (.panicked, [])
    | .ok refs =>
      match refs with
      | [lemon_cap_ref, lemon_mint_config_ref] =>
        let lemons_type : String := toString publish_result.package ++ "::lemons::Lemons"
        let call : MoveCall :=
          { package := publish_result.package
          , module_name := "lemons"
          , function := "debug_setup"
          , type_args := [lemons_type, lemons_type]
          , args := [ .object_imm_or_owned lemon_cap_ref
                    , .object_shared publish_result.lemon_mint_config
                        lemon_mint_config_ref.2.1 true ] }
        let tx_data : TransactionData :=
          { sender := env.active_address
          , gas_payment := [gas_payer.object_ref]
          , calls := [call]
          , gas_budget := SETUP_PACKAGE_GAS_BUDGET
          , gas_price := env.reference_gas_price }
        match env.sign_secure tx_data with
        | .error e => (.err e, [])
        | .ok signature =>
          match verify_tx_data env tx_data signature with
          | .error e => (.err e, [])
          | .ok tx =>
            match env.execute tx with
            | .error e => (.err e, [tx])
            | .ok _ => (.ok (), [tx])
      | _ => (.panicked, [])
/-- Does an error belong to the `IncompleteClassification` family? -/
def Err.isIncompleteClassification : Err → Bool
  | .incompleteClassification _ => true
  | _ => false

/-- The (module, type) parameter pairs the `AdminCap` handler recognises. -/
def adminCapPairs : List (String × String) := [("ljc", "Juice"), ("lemons", "Lemons")]

/-- The parameter pair the `MintConfig` handler recognises. -/
def mintConfigPairs : List (String × String) := [("lemons", "Lemons")]

/-- The parameter pair the `Registry` handler recognises. -/
def registryPairs : List (String × String) := [("lemons", "Lemons")]

/-- The parameter pair the `Randomness` handler recognises. -/
def randomnessPairs : List (String × String) := [("lemons", "Lemons")]

/-- The parameter pair the `TreasuryCap` handler recognises. -/
def coinTreasuryCapPairs : List (String × String) := [("ljc", "LJC")]

/-- Is this a struct-shaped parameter whose (module, name) matches no pair
of `pairs`? -/
def TypeTag.structUnmatched (pairs : List (String × String)) : TypeTag → Bool
  | .strct m n _ => !(pairs.contains (m, n))
  | .nonStruct _ => false

/-- A classifier input with exactly one package record and one record per
recognized resource type signature, carrying the type parameters the build
needs (the single `AdminCap` record carries both its recognized parameters),
parametrised by the nine record identities. -/
def completeObjects (pid a1 a2 a3 a4 a5 a6 a7 a8 : ObjectID) :
    List (ObjectID × ObjectType) :=
  [ (pid, .package)
  , (a1, .strct "admin" "AdminCap" [.strct "ljc" "Juice" [], .strct "lemons" "Lemons" []])
  , (a2, .strct "mint_config" "MintConfig" [.strct "lemons" "Lemons" []])
  , (a3, .strct "registry" "Registry" [.strct "lemons" "Lemons" []])
  , (a4, .strct "randomness" "Randomness" [.strct "lemons" "Lemons" []])
  , (a5, .strct "coin" "TreasuryCap" [.strct "ljc" "LJC" []])
  , (a6, .strct "lemon_pool" "LemonPool" [])
  , (a7, .strct "lemons" "Treasury" [])
  , (a8, .strct "ljc" "JuiceTreasury" []) ]

/-- Concrete environment fixture for witnesses: three coins (balances 100,
30, 5), every collaborator succeeding, execution reporting `Success`. -/
def envFix : SuiEnv :=
  { active_address := 77
  , coins := [ Coin.mk 1 0 0 100 "0x2::sui::SUI"
             , Coin.mk 2 0 0 30 "0x2::sui::SUI"
             , Coin.mk 3 0 0 5 "0x2::sui::SUI" ]
  , reference_gas_price := 1
  , sign_secure := fun _ => .ok 7
  , verify_ok := fun _ _ => true
  , execute := fun _ => .ok ⟨some ⟨.success, []⟩⟩
  , fetch_object := fun oid => .ok ⟨some (oid, 4, 9)⟩
  , compile := .ok ([], [])
  , build_publish_tx := fun _ _ _ _ => .ok ⟨77, [], [], PUBLISH_PACKAGE_GAS_BUDGET, 1⟩ }

/-- Environment fixture with only two coins: after fee-payer selection a
single coin remains, so merging lacks a source coin. -/
def envTwoCoins : SuiEnv :=
  { envFix with coins := [Coin.mk 1 0 0 100 "0x2::sui::SUI", Coin.mk 2 0 0 30 "0x2::sui::SUI"] }

/-- Environment fixture whose submitted transactions execute with a
`Failure` status on chain. -/
def envExecFail : SuiEnv :=
  { envFix with execute := fun _ => .ok ⟨some ⟨.failure "MoveAbort in debug_setup", []⟩⟩ }

/-- A fully populated `PublishResult` fixture. -/
def prFix : PublishResult := ⟨10, 11, 12, 13, 14, 15, 16, 17, 18, 19⟩

/-- Environment fixture whose object fetches succeed but report the object
as non-existent. -/
def envNoObj : SuiEnv :=
  { envFix with fetch_object := fun _ => .ok ⟨none⟩ }

/-- The envelope `setup_package envExecFail prFix` builds and submits (the
100-coin pays gas; `debug_setup` on package 10 with the owned `lemon_cap`
reference and the shared `lemon_mint_config` at its fetched version). -/
def setupTxFix : VerifiedEnvelope :=
  { tx_data :=
    { sender := 77
    , gas_payment := [(1, 0, 0)]
    , calls := [{ package := 10
                , module_name := "lemons"
                , function := "debug_setup"
                , type_args := ["10::lemons::Lemons", "10::lemons::Lemons"]
                , args := [ .object_imm_or_owned (16, 4, 9)
                          , .object_shared 14 4 true ] }]
    , gas_budget := 50
    , gas_price := 1 }
  , signature := 7 }

namespace ListFacts

/-- Replacing the element at an in-range index and re-consing the old element
is a permutation of consing the new element. -/
theorem cons_set_perm {α : Type} :
    ∀ (m : List α) (i : Nat) (h : i < m.length) (a : α),
      List.Perm (m[i] :: m.set i a) (a :: m)
  | b :: t, 0, _, a => by
      simpa using List.Perm.swap a b t
  | b :: t, i + 1, h, a => by
      have hi : i < t.length := by simpa using Nat.lt_of_succ_lt_succ h
      have ih := cons_set_perm t i hi a
      simp only [List.getElem_cons_succ, List.set_cons_succ]
      have h1 : List.Perm (t[i] :: b :: t.set i a) (b :: t[i] :: t.set i a) :=
        List.Perm.swap b t[i] _
      have h2 : List.Perm (b :: t[i] :: t.set i a) (b :: (a :: t)) := ih.cons b
      have h3 : List.Perm (b :: a :: t) (a :: b :: t) := List.Perm.swap a b t
      exact (h1.trans h2).trans h3

/-- Characterisation of `swapRemove` at an in-range index: it removes exactly
the element at that index, and the element together with the remainder is a
permutation of the original list. -/
theorem swapRemove_eq {α : Type} (l : List α) (i : Nat) (h : i < l.length) :
    ∃ rest, swapRemove l i = some (l[i], rest) ∧ List.Perm (l[i] :: rest) l := by
  rcases List.eq_nil_or_concat l with rfl | ⟨ys, a, hl⟩
  · simp at h
  · rw [List.concat_eq_append] at hl
    subst hl
    have hlast : (ys ++ [a]).getLast? = some a := by
      simp [List.getLast?_concat]
    have hlen : i < ys.length + 1 := by simpa using h
    rcases Nat.lt_or_ge i ys.length with hi | hi
    · -- the removed element sits inside `ys`
      have hget : (ys ++ [a])[i] = ys[i] := List.getElem_append_left hi
      have hset : (ys ++ [a]).set i a = ys.set i a ++ [a] := by
        rw [List.set_append]
        simp [hi]
      refine ⟨ys.set i a, ?_, ?_⟩
      · simp only [swapRemove, hlast]
        rw [List.getElem?_eq_getElem h, hget, hset]
        simp [List.dropLast_concat]
      · rw [hget]
        exact (cons_set_perm ys i hi a).trans (List.perm_append_singleton a ys).symm
    · -- the removed element is the last one
      have hie : i = ys.length := Nat.le_antisymm (Nat.lt_succ_iff.mp hlen) hi
      subst hie
      have hget : (ys ++ [a])[ys.length] = a := by
        simp
      have hset : (ys ++ [a]).set ys.length a = ys ++ [a] := by
        rw [List.set_append]
        simp
      refine ⟨ys, ?_, ?_⟩
      · simp only [swapRemove, hlast]
        rw [List.getElem?_eq_getElem h, hget, hset]
        simp [List.dropLast_concat]
      · rw [hget]
        exact (List.perm_append_singleton a ys).symm

/-- From a successful `findIdx?` search: the index is in range, the predicate
holds there, and fails strictly before it. -/
theorem findIdx?_spec {α : Type} {p : α → Bool} {l : List α} {i : Nat}
    (h : l.findIdx? p = some i) :
    ∃ hi : i < l.length, p l[i] = true ∧ ∀ j (hj : j < l.length), j < i → p l[j] = false := by
  have hfi : l.findIdx p = i := by
    rw [List.findIdx_eq_findIdx? p l, h]
  have hex : ∃ x ∈ l, p x = true := by
    by_contra hc
    push_neg at hc
    have : l.findIdx? p = none := by
      rw [List.findIdx?_eq_none_iff]
      intro x hx
      have := hc x hx
      simpa using this
    rw [this] at h
    exact Option.noConfusion h
  have hlt : l.findIdx p < l.length := List.findIdx_lt_length_of_exists hex
  rw [hfi] at hlt
  refine ⟨hlt, ?_, ?_⟩
  · have := @List.findIdx_getElem _ p l (by rw [hfi]; exact hlt)
    simpa [hfi] using this
  · intro j hj hji
    exact List.not_of_lt_findIdx (by rw [hfi]; exact hji)

end ListFacts

/-- C1: when `find_gas_coin_to_pay_gas_budget` succeeds it returns one coin
whose balance covers the requested amount and is minimal among the covering
coins of the pool, together with a remainder that, with the chosen coin, is a
permutation of the pool (i.e. the pool minus the chosen coin as a multiset);
when no coin of the pool covers the amount it fails with the
`InsufficientResources` error. -/
theorem find_gas_coin_correct (coins : List Coin) (amount : Nat) :
    (∀ target rest,
        find_gas_coin_to_pay_gas_budget coins amount = .ok (target, rest) →
          amount ≤ target.balance ∧
          (∀ c ∈ coins, amount ≤ c.balance → target.balance ≤ c.balance) ∧
          List.Perm (target :: rest) coins) ∧
    ((∀ c ∈ coins, c.balance < amount) →
        find_gas_coin_to_pay_gas_budget coins amount = .error .insufficientResources) := by
  have hperm_sort : List.Perm (coins.insertionSort coinLe) coins :=
    List.perm_insertionSort coinLe coins
  constructor
  · intro target rest hok
    simp only [find_gas_coin_to_pay_gas_budget] at hok
    rcases hfind : List.findIdx? (fun c => amount ≤ c.balance) (coins.insertionSort coinLe)
      with _ | i
    · simp only [hfind] at hok
      exact absurd hok (by simp)
    · simp only [hfind] at hok
      obtain ⟨hi, hp, hbefore⟩ := ListFacts.findIdx?_spec hfind
      obtain ⟨rest', hsw, hpm⟩ := ListFacts.swapRemove_eq (coins.insertionSort coinLe) i hi
      simp only [hsw, Except.ok.injEq, Prod.mk.injEq] at hok
      obtain ⟨htgt, hrest⟩ := hok
      subst htgt
      subst hrest
      refine ⟨by simpa using hp, ?_, hpm.trans hperm_sort⟩
      intro c hc hcb
      have hcs : c ∈ coins.insertionSort coinLe := hperm_sort.symm.subset hc
      obtain ⟨j, hj, hje⟩ := List.mem_iff_getElem.mp hcs
      rcases Nat.lt_or_ge j i with hji | hij
      · have := hbefore j hj hji
        rw [hje] at this
        simp at this
        omega
      · rcases Nat.eq_or_lt_of_le hij with rfl | hlt
        · rw [hje]
        · have hsorted := List.sorted_insertionSort coinLe coins
          have := List.pairwise_iff_get.mp hsorted ⟨i, hi⟩ ⟨j, hj⟩ hlt
          simp only [List.get_eq_getElem, coinLe] at this
          rw [hje] at this
          exact this
  · intro hall
    have hnone : List.findIdx? (fun c => amount ≤ c.balance) (coins.insertionSort coinLe)
        = none := by
      rw [List.findIdx?_eq_none_iff]
      intro x hx
      have hxc : x ∈ coins := hperm_sort.subset hx
      have := hall x hxc
      simp only [decide_eq_false_iff_not]
      omega
    simp only [find_gas_coin_to_pay_gas_budget, hnone]

/-- Witness for C1 at the spec's §8 scenario: pool `[A:100, B:5, C:5]`; with
requirement 50 the selector returns `A` and remainder `[B, C]`; with
requirement 200 (no coin covers it) it fails with `InsufficientResources`. -/
theorem find_gas_coin_correct_witness :
    (50 ≤ (100 : Nat) ∧
      (∀ c ∈ [Coin.mk 1 0 0 100 "sui", Coin.mk 2 0 0 5 "sui", Coin.mk 3 0 0 5 "sui"],
        50 ≤ c.balance → (100 : Nat) ≤ c.balance) ∧
      List.Perm
        [Coin.mk 1 0 0 100 "sui", Coin.mk 2 0 0 5 "sui", Coin.mk 3 0 0 5 "sui"]
        [Coin.mk 1 0 0 100 "sui", Coin.mk 2 0 0 5 "sui", Coin.mk 3 0 0 5 "sui"]) ∧
    find_gas_coin_to_pay_gas_budget
        [Coin.mk 1 0 0 100 "sui", Coin.mk 2 0 0 5 "sui", Coin.mk 3 0 0 5 "sui"] 200
      = .error .insufficientResources := by
  constructor
  · have h :=
      (find_gas_coin_correct
        [Coin.mk 1 0 0 100 "sui", Coin.mk 2 0 0 5 "sui", Coin.mk 3 0 0 5 "sui"] 50).1
        (Coin.mk 1 0 0 100 "sui")
        [Coin.mk 2 0 0 5 "sui", Coin.mk 3 0 0 5 "sui"] (by rfl)
    exact h
  · exact (find_gas_coin_correct
      [Coin.mk 1 0 0 100 "sui", Coin.mk 2 0 0 5 "sui", Coin.mk 3 0 0 5 "sui"] 200).2
      (by decide)

/-- C8: `assert_success` returns the effects record unchanged exactly when
the execution status is `Success`; on a `Failure` status it fails with
`ExecutionFailed` carrying the exact on-chain error string; a `Failure`
status is never treated as success. -/
theorem assert_success_correct (e : SuiTransactionBlockEffectsV1) :
    (e.status = .success → assert_success e = .ok e) ∧
    (∀ error, e.status = .failure error →
      assert_success e = .error (.executionFailed error)) ∧
    (∀ e', assert_success e = .ok e' → e.status = .success ∧ e' = e) := by
  refine ⟨?_, ?_, ?_⟩
  · intro h
    simp [assert_success, h]
  · intro error h
    simp [assert_success, h]
  · intro e' h
    cases hs : e.status with
    | success =>
      simp [assert_success, hs] at h
      exact ⟨rfl, h.symm⟩
    | failure error =>
      simp [assert_success, hs] at h

/-- Witness for C8 at concrete effects records: one with `Success`, one with
`Failure "boom"`. -/
theorem assert_success_correct_witness :
    assert_success ⟨.success, []⟩ = .ok ⟨.success, []⟩ ∧
    assert_success ⟨.failure "boom", []⟩ = .error (.executionFailed "boom") ∧
    (SuiTransactionBlockEffectsV1.mk (.failure "boom") []).status = .failure "boom" := by
  refine ⟨?_, ?_, rfl⟩
  · exact (assert_success_correct ⟨.success, []⟩).1 rfl
  · exact (assert_success_correct ⟨.failure "boom", []⟩).2.1 "boom" rfl

/-- The merge loop appends exactly one join call per source coin and adds up
exactly the source balances. -/
theorem mergeLoop_eq (ct : String) (t : Coin) :
    ∀ (l : List Coin) (calls : List MoveCall) (r : Nat),
      mergeLoop ct t l (calls, r)
        = (calls ++ l.map (mergeJoinCall ct t), r + (l.map Coin.balance).sum) := by
  intro l
  induction l with
  | nil => intro calls r; simp [mergeLoop]
  | cons c cs ih =>
    intro calls r
    simp only [mergeLoop, ih, List.map_cons, List.sum_cons, List.append_assoc,
      List.singleton_append, Prod.mk.injEq]
    exact ⟨trivial, by omega⟩

/-- C2: when `merge_all_gas` succeeds, the returned balance is the target's
original balance plus the sum of all source balances, where the target is
the first coin remaining after fee-payer selection and the sources are the
rest; the returned identity is the target's; and exactly one transaction was
submitted, containing exactly one join-into-target call per source. -/
theorem merge_all_gas_correct (env : SuiEnv) (bal : Nat) (id : ObjectID)
    (h : (merge_all_gas env).1 = .ok (bal, id)) :
    ∃ gas_payer target resource,
      find_gas_coin_to_pay_gas_budget env.coins (MERGE_SUI_GAS_BUDGET * 2)
        = .ok (gas_payer, target :: resource) ∧
      resource ≠ [] ∧
      bal = target.balance + (resource.map Coin.balance).sum ∧
      id = target.coin_object_id ∧
      ∃ tx, (merge_all_gas env).2 = [tx] ∧
        tx.tx_data.calls = resource.map (mergeJoinCall gas_payer.coin_type target) := by
  cases hsel : find_gas_coin_to_pay_gas_budget env.coins (MERGE_SUI_GAS_BUDGET * 2) with
  | error e => simp [merge_all_gas, hsel] at h
  | ok pr =>
    obtain ⟨gas_payer, coins_to_merge⟩ := pr
    cases coins_to_merge with
    | nil => simp [merge_all_gas, hsel] at h
    | cons target resource =>
      cases hres : resource.isEmpty with
      | true => simp [merge_all_gas, hsel, hres] at h
      | false =>
        refine ⟨gas_payer, target, resource, rfl, by simp [hres, ← List.isEmpty_iff], ?_⟩
        simp only [merge_all_gas, hsel, hres, mergeLoop_eq, List.nil_append,
          Bool.false_eq_true, if_false, verify_tx_data] at h ⊢
        set TX : TransactionData :=
          { sender := env.active_address
          , gas_payment := [gas_payer.object_ref]
          , calls := List.map (mergeJoinCall gas_payer.coin_type target) resource
          , gas_budget := MERGE_SUI_GAS_BUDGET * 2
          , gas_price := env.reference_gas_price } with hTX
        cases hsig : env.sign_secure TX with
        | error e => simp [hsig] at h
        | ok signature =>
          cases hver : env.verify_ok TX signature with
          | false => simp [hsig, hver] at h
          | true =>
            cases hexe : env.execute ⟨TX, signature⟩ with
            | error e => simp [hsig, hver, hexe] at h
            | ok resp =>
              cases heff : try_into_effects resp with
              | error e => simp [hsig, hver, hexe, heff] at h
              | ok effects =>
                cases hass : assert_success effects with
                | error e => simp [hsig, hver, hexe, heff, hass] at h
                | ok effects2 =>
                  simp only [hsig, hver, if_true, hexe, heff, hass,
                    Except.ok.injEq, Prod.mk.injEq] at h ⊢
                  exact ⟨h.1.symm, h.2.symm, ⟨TX, signature⟩, rfl, rfl⟩

/-- Witness for C2 on the fixture environment: pool of balances 100/30/5 and
budget 20; the payer is the 30-coin, the target the 5-coin, the source the
100-coin, and the merged balance is 105 on the 5-coin's identity. -/
theorem merge_all_gas_correct_witness :
    ∃ gas_payer target resource,
      find_gas_coin_to_pay_gas_budget envFix.coins (MERGE_SUI_GAS_BUDGET * 2)
        = .ok (gas_payer, target :: resource) ∧
      resource ≠ [] ∧
      (105 : Nat) = target.balance + (resource.map Coin.balance).sum ∧
      (3 : ObjectID) = target.coin_object_id ∧
      ∃ tx, (merge_all_gas envFix).2 = [tx] ∧
        tx.tx_data.calls = resource.map (mergeJoinCall gas_payer.coin_type target) :=
  merge_all_gas_correct envFix 105 3 (by rfl)

/-- C3: when fee-payer selection succeeds but the pool held fewer than 3
coins, `merge_all_gas` fails with an `InsufficientInputs` error and submits
no transaction. -/
theorem merge_all_gas_insufficient (env : SuiEnv) (gas_payer : Coin) (rest : List Coin)
    (hsel : find_gas_coin_to_pay_gas_budget env.coins (MERGE_SUI_GAS_BUDGET * 2)
      = .ok (gas_payer, rest))
    (hlen : env.coins.length < 3) :
    (∃ msg, (merge_all_gas env).1 = .error (.insufficientInputs msg)) ∧
    (merge_all_gas env).2 = [] := by
  have hperm :=
    ((find_gas_coin_correct env.coins (MERGE_SUI_GAS_BUDGET * 2)).1 gas_payer rest hsel).2.2
  have hlen2 : rest.length < 2 := by
    have := hperm.length_eq
    simp at this
    omega
  rcases rest with _ | ⟨t, _ | ⟨t2, ts⟩⟩
  · exact ⟨⟨"You don't have enough gas coins for merging. You must have one suitable for paying gas, one target coin and resource coins",
      by simp [merge_all_gas, hsel]⟩, by simp [merge_all_gas, hsel]⟩
  · exact ⟨⟨"You must to have at least one resource coin", by simp [merge_all_gas, hsel]⟩,
      by simp [merge_all_gas, hsel]⟩
  · simp at hlen2
    omega

/-- Witness for C3: with only two coins (100 and 30), the 30-coin is
selected as fee payer, a single coin remains, and merging fails with
`InsufficientInputs` without submitting anything. -/
theorem merge_all_gas_insufficient_witness :
    (∃ msg, (merge_all_gas envTwoCoins).1 = .error (.insufficientInputs msg)) ∧
    (merge_all_gas envTwoCoins).2 = [] :=
  merge_all_gas_insufficient envTwoCoins (Coin.mk 2 0 0 30 "0x2::sui::SUI")
    [Coin.mk 1 0 0 100 "0x2::sui::SUI"] (by rfl) (by decide)

/-- C4 counterexample: in `envExecFail` every submitted transaction executes
with a `Failure` status, yet `setup_package` returns success — the response
of its `execute_tx` call is discarded, no status check happens (deployer.rs
383–387), refuting the claim that a `Failure` setup execution surfaces
`ExecutionFailed`. -/
theorem setup_package_counterexample :
    (setup_package envExecFail prFix).2 = [setupTxFix] ∧
    envExecFail.execute setupTxFix
      = .ok ⟨some ⟨.failure "MoveAbort in debug_setup", []⟩⟩ ∧
    (setup_package envExecFail prFix).1 = .ok () :=
  ⟨rfl, rfl, rfl⟩

/-- C4 (amended): `setup_package` requires only that submission itself
succeeds — whenever it submitted a transaction and `execute_tx` returned a
response, it returns success regardless of the response's execution status;
the on-chain status is never inspected and no `ExecutionFailed` is surfaced
from the setup effects. -/
theorem setup_package_ignores_execution_status (env : SuiEnv) (pr : PublishResult)
    (tx : VerifiedEnvelope) (resp : SuiTransactionBlockResponse)
    (htrace : (setup_package env pr).2 = [tx])
    (hexe : env.execute tx = .ok resp) :
    (setup_package env pr).1 = .ok () := by
  cases hsel : find_gas_coin_to_pay_gas_budget env.coins SETUP_PACKAGE_GAS_BUDGET with
  | error e => simp [setup_package, hsel] at htrace
  | ok pr2 =>
    obtain ⟨gas_payer, rest⟩ := pr2
    cases hrefs : get_objects_references env 2 [pr.lemon_cap, pr.lemon_mint_config] with
    | err e => simp [setup_package, hsel, hrefs] at htrace
    | panicked => simp [setup_package, hsel, hrefs] at htrace
    | ok refs =>
      match refs, hrefs with
      | [], hrefs => simp [setup_package, hsel, hrefs] at htrace
      | [r1], hrefs => simp [setup_package, hsel, hrefs] at htrace
      | r1 :: r2 :: r3 :: rs, hrefs => simp [setup_package, hsel, hrefs] at htrace
      | [r1, r2], hrefs =>
        simp only [setup_package, hsel, hrefs] at htrace ⊢
        cases hsig : env.sign_secure
            { sender := env.active_address
            , gas_payment := [gas_payer.object_ref]
            , calls := [{ package := pr.package
                        , module_name := "lemons"
                        , function := "debug_setup"
                        , type_args := [ toString pr.package ++ "::lemons::Lemons"
                                       , toString pr.package ++ "::lemons::Lemons" ]
                        , args := [ .object_imm_or_owned r1
                                  , .object_shared pr.lemon_mint_config r2.2.1 true ] }]
            , gas_budget := SETUP_PACKAGE_GAS_BUDGET
            , gas_price := env.reference_gas_price } with
        | error e => simp [hsig] at htrace
        | ok signature =>
          simp only [hsig, verify_tx_data] at htrace ⊢
          cases hver : env.verify_ok
                { sender := env.active_address
                 , gas_payment := [gas_payer.object_ref]
                 , calls := [{ package := pr.package
                             , module_name := "lemons"
                             , function := "debug_setup"
                             , type_args := [ toString pr.package ++ "::lemons::Lemons"
                                            , toString pr.package ++ "::lemons::Lemons" ]
                             , args := [ .object_imm_or_owned r1
                                       , .object_shared pr.lemon_mint_config r2.2.1 true ] }]
                 , gas_budget := SETUP_PACKAGE_GAS_BUDGET
                 , gas_price := env.reference_gas_price } signature with
          | false => simp [hver] at htrace
          | true =>
            simp only [hver, if_true] at htrace ⊢
            cases hexe2 : env.execute
                ⟨{ sender := env.active_address
                 , gas_payment := [gas_payer.object_ref]
                 , calls := [{ package := pr.package
                             , module_name := "lemons"
                             , function := "debug_setup"
                             , type_args := [ toString pr.package ++ "::lemons::Lemons"
                                            , toString pr.package ++ "::lemons::Lemons" ]
                             , args := [ .object_imm_or_owned r1
                                       , .object_shared pr.lemon_mint_config r2.2.1 true ] }]
                 , gas_budget := SETUP_PACKAGE_GAS_BUDGET
                 , gas_price := env.reference_gas_price }, signature⟩ with
            | error e =>
              simp only [hexe2] at htrace ⊢
              simp at htrace
              rw [htrace] at hexe2
              rw [hexe2] at hexe
              exact absurd hexe (by simp)
            | ok resp2 => simp [hexe2]

/-- Witness for the amended C4: on the fixture with failing execution, a
transaction is submitted and `setup_package` still returns success. -/
theorem setup_package_ignores_execution_status_witness :
    (setup_package envExecFail prFix).1 = .ok () :=
  setup_package_ignores_execution_status envExecFail prFix setupTxFix
    ⟨some ⟨.failure "MoveAbort in debug_setup", []⟩⟩ (by rfl) (by rfl)

/-- Successful verification produces an envelope whose data and signature
pass the cryptographic check. -/
theorem verify_tx_data_ok (env : SuiEnv) {td : TransactionData} {s : Signature}
    {tx : VerifiedEnvelope} (h : verify_tx_data env td s = .ok tx) :
    env.verify_ok tx.tx_data tx.signature = true := by
  unfold verify_tx_data at h
  cases hc : env.verify_ok td s with
  | false => rw [hc] at h; simp at h
  | true =>
    rw [hc, if_pos rfl] at h
    cases h
    exact hc

/-- The reference-collection loop: under all-fetches-succeed, a missing
object panics; when additionally every fetched object exists, it returns
one confirmed reference per requested identity, in order. -/
theorem collect_object_refs_spec (env : SuiEnv) :
    ∀ ids : List ObjectID,
      (∀ i ∈ ids, ∃ r, env.fetch_object i = .ok r) →
      ((∃ i ∈ ids, ∃ r, env.fetch_object i = .ok r ∧ r.object_ref_if_exists = none) →
        collect_object_refs env ids = .panicked) ∧
      ((∀ i ∈ ids, ∀ r, env.fetch_object i = .ok r → r.object_ref_if_exists ≠ none) →
        ∃ refs, collect_object_refs env ids = .ok refs ∧ refs.length = ids.length ∧
          ∀ k (hk : k < ids.length) (hk2 : k < refs.length),
            ∃ r, env.fetch_object ids[k] = .ok r ∧
              r.object_ref_if_exists = some refs[k]) := by
  intro ids
  induction ids with
  | nil =>
    intro _
    constructor
    · intro hbad
      simp at hbad
    · intro _
      exact ⟨[], rfl, rfl, by intro k hk hk2; simp at hk⟩
  | cons i rest ih =>
    intro hfetch
    obtain ⟨r, hr⟩ := hfetch i (List.mem_cons_self i rest)
    have hfetchRest : ∀ j ∈ rest, ∃ r, env.fetch_object j = .ok r :=
      fun j hj => hfetch j (List.mem_cons_of_mem i hj)
    obtain ⟨ihPanic, ihOk⟩ := ih hfetchRest
    constructor
    · intro hbad
      cases hex : r.object_ref_if_exists with
      | none => simp [collect_object_refs, hr, hex]
      | some ref =>
        have hbadRest : ∃ j ∈ rest, ∃ r2, env.fetch_object j = .ok r2 ∧
            r2.object_ref_if_exists = none := by
          rcases hbad with ⟨j, hjmem, r2, hr2, hnone⟩
          rcases List.mem_cons.mp hjmem with rfl | hjrest
          · rw [hr] at hr2
            cases hr2
            rw [hex] at hnone
            cases hnone
          · exact ⟨j, hjrest, r2, hr2, hnone⟩
        simp [collect_object_refs, hr, hex, ihPanic hbadRest]
    · intro hall
      have hex := hall i (List.mem_cons_self i rest) r hr
      cases hexv : r.object_ref_if_exists with
      | none => exact absurd hexv hex
      | some ref =>
        have hallRest : ∀ j ∈ rest, ∀ r2, env.fetch_object j = .ok r2 →
            r2.object_ref_if_exists ≠ none :=
          fun j hj => hall j (List.mem_cons_of_mem i hj)
        obtain ⟨refs, hrefs, hlen, hpt⟩ := ihOk hallRest
        refine ⟨ref :: refs, ?_, by simp [hlen], ?_⟩
        · simp [collect_object_refs, hr, hexv, hrefs]
        · intro k hk hk2
          cases k with
          | zero => exact ⟨r, by simpa using hr, by simpa using hexv⟩
          | succ k' =>
            have hk' : k' < rest.length := by simpa using hk
            have hk2' : k' < refs.length := by simpa using hk2
            simpa using hpt k' hk' hk2'

/-- C10: `get_objects_references` panics (rather than erroring) when a fetch
succeeds but the object does not exist, or when the reference count differs
from the const parameter `N`; when every identity resolves to an existing
object and the count matches `N`, it returns the `N` confirmed references. -/
theorem get_objects_references_correct (env : SuiEnv) (n : Nat) (ids : List ObjectID)
    (hfetch : ∀ i ∈ ids, ∃ r, env.fetch_object i = .ok r) :
    ((∃ i ∈ ids, ∃ r, env.fetch_object i = .ok r ∧ r.object_ref_if_exists = none) →
      get_objects_references env n ids = .panicked) ∧
    ((∀ i ∈ ids, ∀ r, env.fetch_object i = .ok r → r.object_ref_if_exists ≠ none) →
      (ids.length ≠ n → get_objects_references env n ids = .panicked) ∧
      (ids.length = n →
        ∃ refs, get_objects_references env n ids = .ok refs ∧ refs.length = n ∧
          ∀ k (hk : k < ids.length) (hk2 : k < refs.length),
            ∃ r, env.fetch_object ids[k] = .ok r ∧
              r.object_ref_if_exists = some refs[k])) := by
  obtain ⟨hPanic, hOk⟩ := collect_object_refs_spec env ids hfetch
  constructor
  · intro hbad
    simp [get_objects_references, hPanic hbad]
  · intro hall
    obtain ⟨refs, hrefs, hlen, hpt⟩ := hOk hall
    constructor
    · intro hne
      have : refs.length ≠ n := by omega
      simp [get_objects_references, hrefs, this]
    · intro heq
      refine ⟨refs, ?_, by omega, hpt⟩
      have : refs.length = n := by omega
      simp [get_objects_references, hrefs, this]

/-- Witness for C10: fetches that succeed on non-existent objects panic; a
count mismatch (asking `N = 3` for two identities) panics; and with existing
objects and matching count the two confirmed references are returned. -/
theorem get_objects_references_correct_witness :
    get_objects_references envNoObj 2 [16, 14] = .panicked ∧
    get_objects_references envFix 3 [16, 14] = .panicked ∧
    (∃ refs, get_objects_references envFix 2 [16, 14] = .ok refs ∧ refs.length = 2 ∧
      ∀ k (hk : k < ([16, 14] : List ObjectID).length) (hk2 : k < refs.length),
        ∃ r, envFix.fetch_object ([16, 14] : List ObjectID)[k] = .ok r ∧
          r.object_ref_if_exists = some refs[k]) := by
  refine ⟨?_, ?_, ?_⟩
  · exact (get_objects_references_correct envNoObj 2 [16, 14]
      (fun i _ => ⟨⟨none⟩, rfl⟩)).1
      ⟨16, by simp, ⟨none⟩, rfl, rfl⟩
  · exact ((get_objects_references_correct envFix 3 [16, 14]
      (fun i _ => ⟨⟨some (i, 4, 9)⟩, rfl⟩)).2
      (fun i _ r hr => by cases hr; simp)).1 (by decide)
  · exact ((get_objects_references_correct envFix 2 [16, 14]
      (fun i _ => ⟨⟨some (i, 4, 9)⟩, rfl⟩)).2
      (fun i _ r hr => by cases hr; simp)).2 rfl

/-- C9: every envelope an operation hands to `execute_tx` — in
`merge_all_gas`, `publish_package` and `setup_package` alike — is one whose
signature verification succeeded; no built-but-unverified envelope is ever
submitted. -/
theorem submitted_envelopes_verified (env : SuiEnv) (pr : PublishResult)
    (e : VerifiedEnvelope) :
    (e ∈ (merge_all_gas env).2 → env.verify_ok e.tx_data e.signature = true) ∧
    (e ∈ (publish_package env).2 → env.verify_ok e.tx_data e.signature = true) ∧
    (e ∈ (setup_package env pr).2 → env.verify_ok e.tx_data e.signature = true) := by
  refine ⟨?_, ?_, ?_⟩
  · intro hmem
    cases hsel : find_gas_coin_to_pay_gas_budget env.coins (MERGE_SUI_GAS_BUDGET * 2) with
    | error e2 => simp [merge_all_gas, hsel] at hmem
    | ok pr2 =>
      obtain ⟨gas_payer, coins_to_merge⟩ := pr2
      cases coins_to_merge with
      | nil => simp [merge_all_gas, hsel] at hmem
      | cons target resource =>
        cases hres : resource.isEmpty with
        | true => simp [merge_all_gas, hsel, hres] at hmem
        | false =>
          simp only [merge_all_gas, hsel, hres, Bool.false_eq_true, if_false] at hmem
          cases hsig : env.sign_secure
              { sender := env.active_address
              , gas_payment := [gas_payer.object_ref]
              , calls := (mergeLoop gas_payer.coin_type target resource
                  ([], target.balance)).1
              , gas_budget := MERGE_SUI_GAS_BUDGET * 2
              , gas_price := env.reference_gas_price } with
          | error e2 => simp [hsig] at hmem
          | ok signature =>
            cases hver : verify_tx_data env
                { sender := env.active_address
                , gas_payment := [gas_payer.object_ref]
                , calls := (mergeLoop gas_payer.coin_type target resource
                    ([], target.balance)).1
                , gas_budget := MERGE_SUI_GAS_BUDGET * 2
                , gas_price := env.reference_gas_price } signature with
            | error e2 => simp [hsig, hver] at hmem
            | ok tx =>
              have hvok := verify_tx_data_ok env hver
              cases hexe : env.execute tx with
              | error e2 =>
                simp [hsig, hver, hexe] at hmem
                rw [hmem]
                exact hvok
              | ok resp =>
                cases heff : try_into_effects resp with
                | error e2 =>
                  simp [hsig, hver, hexe, heff] at hmem
                  rw [hmem]
                  exact hvok
                | ok effects =>
                  cases hass : assert_success effects with
                  | error e2 =>
                    simp [hsig, hver, hexe, heff, hass] at hmem
                    rw [hmem]
                    exact hvok
                  | ok effects2 =>
                    simp [hsig, hver, hexe, heff, hass] at hmem
                    rw [hmem]
                    exact hvok
  · intro hmem
    cases hsel : find_gas_coin_to_pay_gas_budget env.coins PUBLISH_PACKAGE_GAS_BUDGET with
    | error e2 => simp [publish_package, hsel] at hmem
    | ok pr2 =>
      obtain ⟨gas_payer, rest⟩ := pr2
      cases hcomp : env.compile with
      | error e2 => simp [publish_package, hsel, hcomp] at hmem
      | ok dm =>
        obtain ⟨published_dependencies, compiled_modules⟩ := dm
        cases hbuild : env.build_publish_tx compiled_modules published_dependencies
            gas_payer.coin_object_id PUBLISH_PACKAGE_GAS_BUDGET with
        | error e2 => simp [publish_package, hsel, hcomp, hbuild] at hmem
        | ok tx_data =>
          cases hsig : env.sign_secure tx_data with
          | error e2 => simp [publish_package, hsel, hcomp, hbuild, hsig] at hmem
          | ok signature =>
            cases hver : verify_tx_data env tx_data signature with
            | error e2 => simp [publish_package, hsel, hcomp, hbuild, hsig, hver] at hmem
            | ok tx =>
              have hvok := verify_tx_data_ok env hver
              cases hexe : env.execute tx with
              | error e2 =>
                simp [publish_package, hsel, hcomp, hbuild, hsig, hver, hexe] at hmem
                rw [hmem]
                exact hvok
              | ok resp =>
                simp [publish_package, hsel, hcomp, hbuild, hsig, hver, hexe] at hmem
                rw [hmem]
                exact hvok
  · intro hmem
    cases hsel : find_gas_coin_to_pay_gas_budget env.coins SETUP_PACKAGE_GAS_BUDGET with
    | error e2 => simp [setup_package, hsel] at hmem
    | ok pr2 =>
      obtain ⟨gas_payer, rest⟩ := pr2
      cases hrefs : get_objects_references env 2 [pr.lemon_cap, pr.lemon_mint_config] with
      | err e2 => simp [setup_package, hsel, hrefs] at hmem
      | panicked => simp [setup_package, hsel, hrefs] at hmem
      | ok refs =>
        match refs, hrefs with
        | [], hrefs => simp [setup_package, hsel, hrefs] at hmem
        | [r1], hrefs => simp [setup_package, hsel, hrefs] at hmem
        | r1 :: r2 :: r3 :: rs, hrefs => simp [setup_package, hsel, hrefs] at hmem
        | [r1, r2], hrefs =>
          simp only [setup_package, hsel, hrefs] at hmem
          cases hsig : env.sign_secure
              { sender := env.active_address
              , gas_payment := [gas_payer.object_ref]
              , calls := [{ package := pr.package
                          , module_name := "lemons"
                          , function := "debug_setup"
                          , type_args := [ toString pr.package ++ "::lemons::Lemons"
                                         , toString pr.package ++ "::lemons::Lemons" ]
                          , args := [ .object_imm_or_owned r1
                                    , .object_shared pr.lemon_mint_config r2.2.1 true ] }]
              , gas_budget := SETUP_PACKAGE_GAS_BUDGET
              , gas_price := env.reference_gas_price } with
          | error e2 => simp [hsig] at hmem
          | ok signature =>
            cases hver : verify_tx_data env
                { sender := env.active_address
                , gas_payment := [gas_payer.object_ref]
                , calls := [{ package := pr.package
                            , module_name := "lemons"
                            , function := "debug_setup"
                            , type_args := [ toString pr.package ++ "::lemons::Lemons"
                                           , toString pr.package ++ "::lemons::Lemons" ]
                            , args := [ .object_imm_or_owned r1
                                      , .object_shared pr.lemon_mint_config r2.2.1 true ] }]
                , gas_budget := SETUP_PACKAGE_GAS_BUDGET
                , gas_price := env.reference_gas_price } signature with
            | error e2 => simp [hsig, hver] at hmem
            | ok tx =>
              have hvok := verify_tx_data_ok env hver
              cases hexe : env.execute tx with
              | error e2 =>
                simp [hsig, hver, hexe] at hmem
                rw [hmem]
                exact hvok
              | ok resp =>
                simp [hsig, hver, hexe] at hmem
                rw [hmem]
                exact hvok

/-- Witness for C9 on the fixture environment: the single envelope each of
the three operations submits passes the fixture's verification check. -/
theorem submitted_envelopes_verified_witness :
    envFix.verify_ok
        (VerifiedEnvelope.mk
          ⟨77, [(2, 0, 0)],
            [⟨2, "pay", "join", ["0x2::sui::SUI"],
              [.object_imm_or_owned (3, 0, 0), .object_imm_or_owned (1, 0, 0)]⟩], 20, 1⟩ 7).tx_data
        (VerifiedEnvelope.mk
          ⟨77, [(2, 0, 0)],
            [⟨2, "pay", "join", ["0x2::sui::SUI"],
              [.object_imm_or_owned (3, 0, 0), .object_imm_or_owned (1, 0, 0)]⟩], 20, 1⟩ 7).signature
      = true ∧
    envFix.verify_ok (VerifiedEnvelope.mk ⟨77, [], [], 50, 1⟩ 7).tx_data
        (VerifiedEnvelope.mk ⟨77, [], [], 50, 1⟩ 7).signature = true ∧
    envFix.verify_ok setupTxFix.tx_data setupTxFix.signature = true := by
  refine ⟨?_, ?_, ?_⟩
  · exact (submitted_envelopes_verified envFix prFix
      (VerifiedEnvelope.mk
        ⟨77, [(2, 0, 0)],
          [⟨2, "pay", "join", ["0x2::sui::SUI"],
            [.object_imm_or_owned (3, 0, 0), .object_imm_or_owned (1, 0, 0)]⟩], 20, 1⟩ 7)).1
      (by decide)
  · exact (submitted_envelopes_verified envFix prFix
      (VerifiedEnvelope.mk ⟨77, [], [], 50, 1⟩ 7)).2.1 (by decide)
  · exact (submitted_envelopes_verified envFix prFix setupTxFix).2.2 (by decide)

/-- C5: on an input with exactly one package record and one record per
recognized resource type signature with the type parameters the build needs,
`process_objects` returns a result with all ten identity fields populated
and no error; removing any one of the eight resource records makes it fail
with `IncompleteClassification`, because some field was never set. -/
theorem process_objects_complete (pid a1 a2 a3 a4 a5 a6 a7 a8 : ObjectID) :
    process_objects (completeObjects pid a1 a2 a3 a4 a5 a6 a7 a8)
      = .ok ⟨pid, a6, a3, a4, a2, a7, a1, a1, a8, a5⟩ ∧
    ∀ k, k < 8 →
      ∃ f, process_objects ((completeObjects pid a1 a2 a3 a4 a5 a6 a7 a8).eraseIdx (k + 1))
        = .error (.incompleteClassification f) := by
  refine ⟨rfl, ?_⟩
  intro k hk
  interval_cases k
  · exact ⟨"lemon_cap", rfl⟩
  · exact ⟨"lemon_mint_config", rfl⟩
  · exact ⟨"lemon_registry", rfl⟩
  · exact ⟨"lemon_randomness", rfl⟩
  · exact ⟨"coin_juice_treasury_cap", rfl⟩
  · exact ⟨"lemons_pool", rfl⟩
  · exact ⟨"lemon_treasury", rfl⟩
  · exact ⟨"juice_treasury", rfl⟩

/-- A successful run of the handler only ever updates its own fields: the
`package` field is preserved. -/
theorem admin_cap_handler_pkg (id : ObjectID) :
    ∀ (params : List TypeTag) (b b2 : PublishResultBuilder),
      admin_cap_handler b id params = .ok b2 → b2.package = b.package := by
  intro params
  induction params with
  | nil =>
    intro b b2 h
    cases h
    rfl
  | cons p rest ih =>
    intro b b2 h
    cases p with
    | nonStruct d => cases h
    | strct m n ps =>
      simp only [admin_cap_handler] at h
      generalize hB : (if m = "ljc" ∧ n = "Juice" then { b with juice_cap := some id }
          else if m = "lemons" ∧ n = "Lemons" then { b with lemon_cap := some id }
          else b) = bm at h
      have hpkg : bm.package = b.package := by
        rw [← hB]
        split_ifs <;> rfl
      rw [ih bm b2 h, hpkg]

/-- A failing run of the handler fails with its `UnexpectedTypeParameter`
message. -/
theorem admin_cap_handler_err (id : ObjectID) :
    ∀ (params : List TypeTag) (b : PublishResultBuilder) (e : Err),
      admin_cap_handler b id params = .error e →
      e = .unexpectedTypeParameter "AdminCap's type_params must contain only TypeTag::Struct" := by
  intro params
  induction params with
  | nil => intro b e h; cases h
  | cons p rest ih =>
    intro b e h
    cases p with
    | nonStruct d =>
      cases h
      rfl
    | strct m n ps =>
      simp only [admin_cap_handler] at h
      exact ih _ e h

/-- A successful run of the handler only ever updates its own fields: the
`package` field is preserved. -/
theorem mint_config_handler_pkg (id : ObjectID) :
    ∀ (params : List TypeTag) (b b2 : PublishResultBuilder),
      mint_config_handler b id params = .ok b2 → b2.package = b.package := by
  intro params
  induction params with
  | nil =>
    intro b b2 h
    cases h
    rfl
  | cons p rest ih =>
    intro b b2 h
    cases p with
    | nonStruct d => cases h
    | strct m n ps =>
      simp only [mint_config_handler] at h
      generalize hB : (if m = "lemons" ∧ n = "Lemons" then { b with lemon_mint_config := some id }
          else b) = bm at h
      have hpkg : bm.package = b.package := by
        rw [← hB]
        split_ifs <;> rfl
      rw [ih bm b2 h, hpkg]

/-- A failing run of the handler fails with its `UnexpectedTypeParameter`
message. -/
theorem mint_config_handler_err (id : ObjectID) :
    ∀ (params : List TypeTag) (b : PublishResultBuilder) (e : Err),
      mint_config_handler b id params = .error e →
      e = .unexpectedTypeParameter "MintConfig's type_params must contain only TypeTag::Struct" := by
  intro params
  induction params with
  | nil => intro b e h; cases h
  | cons p rest ih =>
    intro b e h
    cases p with
    | nonStruct d =>
      cases h
      rfl
    | strct m n ps =>
      simp only [mint_config_handler] at h
      exact ih _ e h

/-- A successful run of the handler only ever updates its own fields: the
`package` field is preserved. -/
theorem registry_handler_pkg (id : ObjectID) :
    ∀ (params : List TypeTag) (b b2 : PublishResultBuilder),
      registry_handler b id params = .ok b2 → b2.package = b.package := by
  intro params
  induction params with
  | nil =>
    intro b b2 h
    cases h
    rfl
  | cons p rest ih =>
    intro b b2 h
    cases p with
    | nonStruct d => cases h
    | strct m n ps =>
      simp only [registry_handler] at h
      generalize hB : (if m = "lemons" ∧ n = "Lemons" then { b with lemon_registry := some id }
          else b) = bm at h
      have hpkg : bm.package = b.package := by
        rw [← hB]
        split_ifs <;> rfl
      rw [ih bm b2 h, hpkg]

/-- A failing run of the handler fails with its `UnexpectedTypeParameter`
message. -/
theorem registry_handler_err (id : ObjectID) :
    ∀ (params : List TypeTag) (b : PublishResultBuilder) (e : Err),
      registry_handler b id params = .error e →
      e = .unexpectedTypeParameter "Registry's type_params must contain only TypeTag::Struct" := by
  intro params
  induction params with
  | nil => intro b e h; cases h
  | cons p rest ih =>
    intro b e h
    cases p with
    | nonStruct d =>
      cases h
      rfl
    | strct m n ps =>
      simp only [registry_handler] at h
      exact ih _ e h

/-- A successful run of the handler only ever updates its own fields: the
`package` field is preserved. -/
theorem randomness_handler_pkg (id : ObjectID) :
    ∀ (params : List TypeTag) (b b2 : PublishResultBuilder),
      randomness_handler b id params = .ok b2 → b2.package = b.package := by
  intro params
  induction params with
  | nil =>
    intro b b2 h
    cases h
    rfl
  | cons p rest ih =>
    intro b b2 h
    cases p with
    | nonStruct d => cases h
    | strct m n ps =>
      simp only [randomness_handler] at h
      generalize hB : (if m = "lemons" ∧ n = "Lemons" then { b with lemon_randomness := some id }
          else b) = bm at h
      have hpkg : bm.package = b.package := by
        rw [← hB]
        split_ifs <;> rfl
      rw [ih bm b2 h, hpkg]

/-- A failing run of the handler fails with its `UnexpectedTypeParameter`
message. -/
theorem randomness_handler_err (id : ObjectID) :
    ∀ (params : List TypeTag) (b : PublishResultBuilder) (e : Err),
      randomness_handler b id params = .error e →
      e = .unexpectedTypeParameter "Randomness's type_params must contain only TypeTag::Struct" := by
  intro params
  induction params with
  | nil => intro b e h; cases h
  | cons p rest ih =>
    intro b e h
    cases p with
    | nonStruct d =>
      cases h
      rfl
    | strct m n ps =>
      simp only [randomness_handler] at h
      exact ih _ e h

/-- A successful run of the handler only ever updates its own fields: the
`package` field is preserved. -/
theorem coin_treasury_cap_handler_pkg (id : ObjectID) :
    ∀ (params : List TypeTag) (b b2 : PublishResultBuilder),
      coin_treasury_cap_handler b id params = .ok b2 → b2.package = b.package := by
  intro params
  induction params with
  | nil =>
    intro b b2 h
    cases h
    rfl
  | cons p rest ih =>
    intro b b2 h
    cases p with
    | nonStruct d => cases h
    | strct m n ps =>
      simp only [coin_treasury_cap_handler] at h
      generalize hB : (if m = "ljc" ∧ n = "LJC" then { b with coin_juice_treasury_cap := some id }
          else b) = bm at h
      have hpkg : bm.package = b.package := by
        rw [← hB]
        split_ifs <;> rfl
      rw [ih bm b2 h, hpkg]

/-- A failing run of the handler fails with its `UnexpectedTypeParameter`
message. -/
theorem coin_treasury_cap_handler_err (id : ObjectID) :
    ∀ (params : List TypeTag) (b : PublishResultBuilder) (e : Err),
      coin_treasury_cap_handler b id params = .error e →
      e = .unexpectedTypeParameter "CoinTreasury's type_params must contain only TypeTag::Struct" := by
  intro params
  induction params with
  | nil => intro b e h; cases h
  | cons p rest ih =>
    intro b e h
    cases p with
    | nonStruct d =>
      cases h
      rfl
    | strct m n ps =>
      simp only [coin_treasury_cap_handler] at h
      exact ih _ e h

set_option maxHeartbeats 2000000 in
/-- One dispatch step never touches the `package` field. -/
theorem classify_step_pkg (b : PublishResultBuilder) (id : ObjectID)
    (mn tn : String) (tp : List TypeTag) (b2 : PublishResultBuilder)
    (h : classify_step b id mn tn tp = .ok b2) : b2.package = b.package := by
  unfold classify_step at h
  split at h
  · exact admin_cap_handler_pkg id tp b b2 h
  · exact mint_config_handler_pkg id tp b b2 h
  · exact registry_handler_pkg id tp b b2 h
  · exact randomness_handler_pkg id tp b b2 h
  · exact coin_treasury_cap_handler_pkg id tp b b2 h
  · cases h; rfl
  · cases h; rfl
  · cases h; rfl
  · cases h; rfl

set_option maxHeartbeats 2000000 in
/-- One dispatch step can only fail with `UnexpectedTypeParameter`. -/
theorem classify_step_err (b : PublishResultBuilder) (id : ObjectID)
    (mn tn : String) (tp : List TypeTag) (e : Err)
    (h : classify_step b id mn tn tp = .error e) :
    ∃ m, e = .unexpectedTypeParameter m := by
  unfold classify_step at h
  split at h
  · exact ⟨_, admin_cap_handler_err id tp b e h⟩
  · exact ⟨_, mint_config_handler_err id tp b e h⟩
  · exact ⟨_, registry_handler_err id tp b e h⟩
  · exact ⟨_, randomness_handler_err id tp b e h⟩
  · exact ⟨_, coin_treasury_cap_handler_err id tp b e h⟩
  · cases h
  · cases h
  · cases h
  · cases h

/-- The dispatch loop never touches the `package` field. -/
theorem process_rest_pkg :
    ∀ (l : List (ObjectID × ObjectType)) (b b' : PublishResultBuilder),
      process_rest b l = .ok b' → b'.package = b.package := by
  intro l
  induction l with
  | nil =>
    intro b b' h
    cases h
    rfl
  | cons x rest ih =>
    intro b b' h
    obtain ⟨id, t⟩ := x
    cases t with
    | package =>
      simp only [process_rest] at h
      exact ih b b' h
    | strct mn tn tp =>
      simp only [process_rest] at h
      cases hstep : classify_step b id mn tn tp with
      | error e =>
        rw [hstep] at h
        cases h
      | ok b2 =>
        rw [hstep] at h
        rw [ih b2 b' h, classify_step_pkg b id mn tn tp b2 hstep]

/-- The dispatch loop's only error is `UnexpectedTypeParameter`. -/
theorem process_rest_err :
    ∀ (l : List (ObjectID × ObjectType)) (b : PublishResultBuilder) (e : Err),
      process_rest b l = .error e → ∃ m, e = .unexpectedTypeParameter m := by
  intro l
  induction l with
  | nil => intro b e h; cases h
  | cons x rest ih =>
    intro b e h
    obtain ⟨id, t⟩ := x
    cases t with
    | package =>
      simp only [process_rest] at h
      exact ih b e h
    | strct mn tn tp =>
      simp only [process_rest] at h
      cases hstep : classify_step b id mn tn tp with
      | error e2 =>
        rw [hstep] at h
        cases h
        exact classify_step_err b id mn tn tp e hstep
      | ok b2 =>
        rw [hstep] at h
        exact ih b2 e h

/-- A successful build pins the result's `package` field to the builder's. -/
theorem build_ok_package (b : PublishResultBuilder) (r : PublishResult)
    (h : PublishResultBuilder.build b = .ok r) : b.package = some r.package := by
  unfold PublishResultBuilder.build reqField at h
  cases h0 : b.package with
  | none =>
    simp only [h0, Bind.bind, Except.bind, pure, Except.pure] at h
    cases h
  | some v0 =>
    simp only [h0, Bind.bind, Except.bind, pure, Except.pure] at h
    cases h1 : b.lemons_pool with
    | none =>
      simp only [h1, Bind.bind, Except.bind, pure, Except.pure] at h
      cases h
    | some v1 =>
      simp only [h1, Bind.bind, Except.bind, pure, Except.pure] at h
      cases h2 : b.lemon_registry with
      | none =>
        simp only [h2, Bind.bind, Except.bind, pure, Except.pure] at h
        cases h
      | some v2 =>
        simp only [h2, Bind.bind, Except.bind, pure, Except.pure] at h
        cases h3 : b.lemon_randomness with
        | none =>
          simp only [h3, Bind.bind, Except.bind, pure, Except.pure] at h
          cases h
        | some v3 =>
          simp only [h3, Bind.bind, Except.bind, pure, Except.pure] at h
          cases h4 : b.lemon_mint_config with
          | none =>
            simp only [h4, Bind.bind, Except.bind, pure, Except.pure] at h
            cases h
          | some v4 =>
            simp only [h4, Bind.bind, Except.bind, pure, Except.pure] at h
            cases h5 : b.lemon_treasury with
            | none =>
              simp only [h5, Bind.bind, Except.bind, pure, Except.pure] at h
              cases h
            | some v5 =>
              simp only [h5, Bind.bind, Except.bind, pure, Except.pure] at h
              cases h6 : b.lemon_cap with
              | none =>
                simp only [h6, Bind.bind, Except.bind, pure, Except.pure] at h
                cases h
              | some v6 =>
                simp only [h6, Bind.bind, Except.bind, pure, Except.pure] at h
                cases h7 : b.juice_cap with
                | none =>
                  simp only [h7, Bind.bind, Except.bind, pure, Except.pure] at h
                  cases h
                | some v7 =>
                  simp only [h7, Bind.bind, Except.bind, pure, Except.pure] at h
                  cases h8 : b.juice_treasury with
                  | none =>
                    simp only [h8, Bind.bind, Except.bind, pure, Except.pure] at h
                    cases h
                  | some v8 =>
                    simp only [h8, Bind.bind, Except.bind, pure, Except.pure] at h
                    cases h9 : b.coin_juice_treasury_cap with
                    | none =>
                      simp only [h9, Bind.bind, Except.bind, pure, Except.pure] at h
                      cases h
                    | some v9 =>
                      simp only [h9, Bind.bind, Except.bind, pure, Except.pure] at h
                      cases h
                      rfl

/-- A failing build fails with `IncompleteClassification` (naming the first
unset field). -/
theorem build_err (b : PublishResultBuilder) (e : Err)
    (h : PublishResultBuilder.build b = .error e) :
    ∃ f, e = .incompleteClassification f := by
  unfold PublishResultBuilder.build reqField at h
  cases h0 : b.package with
  | none =>
    simp only [h0, Bind.bind, Except.bind, pure, Except.pure] at h
    cases h
    exact ⟨_, rfl⟩
  | some v0 =>
    simp only [h0, Bind.bind, Except.bind, pure, Except.pure] at h
    cases h1 : b.lemons_pool with
    | none =>
      simp only [h1, Bind.bind, Except.bind, pure, Except.pure] at h
      cases h
      exact ⟨_, rfl⟩
    | some v1 =>
      simp only [h1, Bind.bind, Except.bind, pure, Except.pure] at h
      cases h2 : b.lemon_registry with
      | none =>
        simp only [h2, Bind.bind, Except.bind, pure, Except.pure] at h
        cases h
        exact ⟨_, rfl⟩
      | some v2 =>
        simp only [h2, Bind.bind, Except.bind, pure, Except.pure] at h
        cases h3 : b.lemon_randomness with
        | none =>
          simp only [h3, Bind.bind, Except.bind, pure, Except.pure] at h
          cases h
          exact ⟨_, rfl⟩
        | some v3 =>
          simp only [h3, Bind.bind, Except.bind, pure, Except.pure] at h
          cases h4 : b.lemon_mint_config with
          | none =>
            simp only [h4, Bind.bind, Except.bind, pure, Except.pure] at h
            cases h
            exact ⟨_, rfl⟩
          | some v4 =>
            simp only [h4, Bind.bind, Except.bind, pure, Except.pure] at h
            cases h5 : b.lemon_treasury with
            | none =>
              simp only [h5, Bind.bind, Except.bind, pure, Except.pure] at h
              cases h
              exact ⟨_, rfl⟩
            | some v5 =>
              simp only [h5, Bind.bind, Except.bind, pure, Except.pure] at h
              cases h6 : b.lemon_cap with
              | none =>
                simp only [h6, Bind.bind, Except.bind, pure, Except.pure] at h
                cases h
                exact ⟨_, rfl⟩
              | some v6 =>
                simp only [h6, Bind.bind, Except.bind, pure, Except.pure] at h
                cases h7 : b.juice_cap with
                | none =>
                  simp only [h7, Bind.bind, Except.bind, pure, Except.pure] at h
                  cases h
                  exact ⟨_, rfl⟩
                | some v7 =>
                  simp only [h7, Bind.bind, Except.bind, pure, Except.pure] at h
                  cases h8 : b.juice_treasury with
                  | none =>
                    simp only [h8, Bind.bind, Except.bind, pure, Except.pure] at h
                    cases h
                    exact ⟨_, rfl⟩
                  | some v8 =>
                    simp only [h8, Bind.bind, Except.bind, pure, Except.pure] at h
                    cases h9 : b.coin_juice_treasury_cap with
                    | none =>
                      simp only [h9, Bind.bind, Except.bind, pure, Except.pure] at h
                      cases h
                      exact ⟨_, rfl⟩
                    | some v9 =>
                      simp only [h9, Bind.bind, Except.bind, pure, Except.pure] at h
                      cases h

/-- C6: `process_objects` fails with `NoPackageObject` exactly when the
input holds no package-typed record; whenever it returns a result, the
result's `package` field is the identity of the last package-typed record in
input order — in particular, with more than one package record the last one
wins. -/
theorem process_objects_package_rule (objects : List (ObjectID × ObjectType)) :
    (process_objects objects = .error .noPackageObject ↔
      objects.filter (fun x => x.2.isPackage) = []) ∧
    (∀ r, process_objects objects = .ok r →
      ∃ t, (objects.filter (fun x => x.2.isPackage)).getLast? = some (r.package, t)) := by
  cases hl : (objects.filter (fun x => x.2.isPackage)).getLast? with
  | none =>
    have hfil : objects.filter (fun x => x.2.isPackage) = [] := by
      cases hf : objects.filter (fun x => x.2.isPackage) with
      | nil => rfl
      | cons a l =>
        rw [hf] at hl
        simp [List.getLast?_concat] at hl
    have hproc : process_objects objects = .error .noPackageObject := by
      simp only [process_objects, List.partition_eq_filter_filter, hfil, List.getLast?_nil]
    exact ⟨by simp [hproc, hfil], by simp [hproc]⟩
  | some pt =>
    obtain ⟨pid, t⟩ := pt
    have hne : objects.filter (fun x => x.2.isPackage) ≠ [] := by
      intro hf
      rw [hf] at hl
      cases hl
    have hproc : process_objects objects
        = match process_rest { package := some pid }
            (List.filter (not ∘ fun x => x.2.isPackage) objects) with
          | .error e => .error e
          | .ok b => b.build := by
      simp only [process_objects, List.partition_eq_filter_filter, hl]
    cases hrest : process_rest { package := some pid }
        (List.filter (not ∘ fun x => x.2.isPackage) objects) with
    | error e =>
      obtain ⟨m, hm⟩ := process_rest_err _ _ _ hrest
      simp only [hrest] at hproc
      constructor
      · constructor
        · intro herr
          rw [hproc] at herr
          rw [hm] at herr
          cases herr
        · intro hf
          exact absurd hf hne
      · intro r hr
        rw [hproc] at hr
        cases hr
    | ok b' =>
      simp only [hrest] at hproc
      cases hbuild : b'.build with
      | error e =>
        obtain ⟨f, hf⟩ := build_err b' e hbuild
        rw [hbuild] at hproc
        constructor
        · constructor
          · intro herr
            rw [hproc] at herr
            rw [hf] at herr
            cases herr
          · intro hfil
            exact absurd hfil hne
        · intro r hr
          rw [hproc] at hr
          cases hr
      | ok r0 =>
        rw [hbuild] at hproc
        constructor
        · constructor
          · intro herr
            rw [hproc] at herr
            cases herr
          · intro hfil
            exact absurd hfil hne
        · intro r hr
          rw [hproc] at hr
          cases hr
          have hpkg : b'.package = some pid := process_rest_pkg _ _ _ hrest
          have hpkg2 : b'.package = some r0.package := build_ok_package b' r0 hbuild
          rw [hpkg] at hpkg2
          cases hpkg2
          exact ⟨t, rfl⟩

/-- A non-struct parameter anywhere in the list makes the handler fail with
`UnexpectedTypeParameter`. -/
theorem admin_cap_handler_nonstruct (id : ObjectID) :
    ∀ (params : List TypeTag) (b : PublishResultBuilder),
      (∃ p ∈ params, p.isStruct = false) →
      admin_cap_handler b id params
        = .error (.unexpectedTypeParameter "AdminCap's type_params must contain only TypeTag::Struct") := by
  intro params
  induction params with
  | nil =>
    intro b h
    simp at h
  | cons p rest ih =>
    intro b h
    cases p with
    | nonStruct d => rfl
    | strct m n ps =>
      have hrest : ∃ q ∈ rest, q.isStruct = false := by
        rcases h with ⟨q, hq, hqf⟩
        rcases List.mem_cons.mp hq with rfl | hqr
        · simp [TypeTag.isStruct] at hqf
        · exact ⟨q, hqr, hqf⟩
      simp only [admin_cap_handler]
      exact ih _ hrest

/-- Struct parameters matching none of the handler's recognized pairs are
skipped: the handler returns the builder unchanged. -/
theorem admin_cap_handler_skip (id : ObjectID) :
    ∀ (params : List TypeTag) (b : PublishResultBuilder),
      (∀ p ∈ params, p.structUnmatched adminCapPairs = true) →
      admin_cap_handler b id params = .ok b := by
  intro params
  induction params with
  | nil => intro b _; rfl
  | cons p rest ih =>
    intro b h
    have hp := h p (List.mem_cons_self p rest)
    cases p with
    | nonStruct d => simp [TypeTag.structUnmatched] at hp
    | strct m n ps =>
      have hrest : ∀ q ∈ rest, q.structUnmatched adminCapPairs = true :=
        fun q hq => h q (List.mem_cons_of_mem _ hq)
      have hneg0 : ¬(m = "ljc" ∧ n = "Juice") := by
        rintro ⟨rfl, rfl⟩
        simp [TypeTag.structUnmatched, adminCapPairs] at hp
      have hneg1 : ¬(m = "lemons" ∧ n = "Lemons") := by
        rintro ⟨rfl, rfl⟩
        simp [TypeTag.structUnmatched, adminCapPairs] at hp
      simp only [admin_cap_handler]
      rw [if_neg hneg0, if_neg hneg1]
      exact ih b hrest

/-- A non-struct parameter anywhere in the list makes the handler fail with
`UnexpectedTypeParameter`. -/
theorem mint_config_handler_nonstruct (id : ObjectID) :
    ∀ (params : List TypeTag) (b : PublishResultBuilder),
      (∃ p ∈ params, p.isStruct = false) →
      mint_config_handler b id params
        = .error (.unexpectedTypeParameter "MintConfig's type_params must contain only TypeTag::Struct") := by
  intro params
  induction params with
  | nil =>
    intro b h
    simp at h
  | cons p rest ih =>
    intro b h
    cases p with
    | nonStruct d => rfl
    | strct m n ps =>
      have hrest : ∃ q ∈ rest, q.isStruct = false := by
        rcases h with ⟨q, hq, hqf⟩
        rcases List.mem_cons.mp hq with rfl | hqr
        · simp [TypeTag.isStruct] at hqf
        · exact ⟨q, hqr, hqf⟩
      simp only [mint_config_handler]
      exact ih _ hrest

/-- Struct parameters matching none of the handler's recognized pairs are
skipped: the handler returns the builder unchanged. -/
theorem mint_config_handler_skip (id : ObjectID) :
    ∀ (params : List TypeTag) (b : PublishResultBuilder),
      (∀ p ∈ params, p.structUnmatched mintConfigPairs = true) →
      mint_config_handler b id params = .ok b := by
  intro params
  induction params with
  | nil => intro b _; rfl
  | cons p rest ih =>
    intro b h
    have hp := h p (List.mem_cons_self p rest)
    cases p with
    | nonStruct d => simp [TypeTag.structUnmatched] at hp
    | strct m n ps =>
      have hrest : ∀ q ∈ rest, q.structUnmatched mintConfigPairs = true :=
        fun q hq => h q (List.mem_cons_of_mem _ hq)
      have hneg0 : ¬(m = "lemons" ∧ n = "Lemons") := by
        rintro ⟨rfl, rfl⟩
        simp [TypeTag.structUnmatched, mintConfigPairs] at hp
      simp only [mint_config_handler]
      rw [if_neg hneg0]
      exact ih b hrest

/-- A non-struct parameter anywhere in the list makes the handler fail with
`UnexpectedTypeParameter`. -/
theorem registry_handler_nonstruct (id : ObjectID) :
    ∀ (params : List TypeTag) (b : PublishResultBuilder),
      (∃ p ∈ params, p.isStruct = false) →
      registry_handler b id params
        = .error (.unexpectedTypeParameter "Registry's type_params must contain only TypeTag::Struct") := by
  intro params
  induction params with
  | nil =>
    intro b h
    simp at h
  | cons p rest ih =>
    intro b h
    cases p with
    | nonStruct d => rfl
    | strct m n ps =>
      have hrest : ∃ q ∈ rest, q.isStruct = false := by
        rcases h with ⟨q, hq, hqf⟩
        rcases List.mem_cons.mp hq with rfl | hqr
        · simp [TypeTag.isStruct] at hqf
        · exact ⟨q, hqr, hqf⟩
      simp only [registry_handler]
      exact ih _ hrest

/-- Struct parameters matching none of the handler's recognized pairs are
skipped: the handler returns the builder unchanged. -/
theorem registry_handler_skip (id : ObjectID) :
    ∀ (params : List TypeTag) (b : PublishResultBuilder),
      (∀ p ∈ params, p.structUnmatched registryPairs = true) →
      registry_handler b id params = .ok b := by
  intro params
  induction params with
  | nil => intro b _; rfl
  | cons p rest ih =>
    intro b h
    have hp := h p (List.mem_cons_self p rest)
    cases p with
    | nonStruct d => simp [TypeTag.structUnmatched] at hp
    | strct m n ps =>
      have hrest : ∀ q ∈ rest, q.structUnmatched registryPairs = true :=
        fun q hq => h q (List.mem_cons_of_mem _ hq)
      have hneg0 : ¬(m = "lemons" ∧ n = "Lemons") := by
        rintro ⟨rfl, rfl⟩
        simp [TypeTag.structUnmatched, registryPairs] at hp
      simp only [registry_handler]
      rw [if_neg hneg0]
      exact ih b hrest

/-- A non-struct parameter anywhere in the list makes the handler fail with
`UnexpectedTypeParameter`. -/
theorem randomness_handler_nonstruct (id : ObjectID) :
    ∀ (params : List TypeTag) (b : PublishResultBuilder),
      (∃ p ∈ params, p.isStruct = false) →
      randomness_handler b id params
        = .error (.unexpectedTypeParameter "Randomness's type_params must contain only TypeTag::Struct") := by
  intro params
  induction params with
  | nil =>
    intro b h
    simp at h
  | cons p rest ih =>
    intro b h
    cases p with
    | nonStruct d => rfl
    | strct m n ps =>
      have hrest : ∃ q ∈ rest, q.isStruct = false := by
        rcases h with ⟨q, hq, hqf⟩
        rcases List.mem_cons.mp hq with rfl | hqr
        · simp [TypeTag.isStruct] at hqf
        · exact ⟨q, hqr, hqf⟩
      simp only [randomness_handler]
      exact ih _ hrest

/-- Struct parameters matching none of the handler's recognized pairs are
skipped: the handler returns the builder unchanged. -/
theorem randomness_handler_skip (id : ObjectID) :
    ∀ (params : List TypeTag) (b : PublishResultBuilder),
      (∀ p ∈ params, p.structUnmatched randomnessPairs = true) →
      randomness_handler b id params = .ok b := by
  intro params
  induction params with
  | nil => intro b _; rfl
  | cons p rest ih =>
    intro b h
    have hp := h p (List.mem_cons_self p rest)
    cases p with
    | nonStruct d => simp [TypeTag.structUnmatched] at hp
    | strct m n ps =>
      have hrest : ∀ q ∈ rest, q.structUnmatched randomnessPairs = true :=
        fun q hq => h q (List.mem_cons_of_mem _ hq)
      have hneg0 : ¬(m = "lemons" ∧ n = "Lemons") := by
        rintro ⟨rfl, rfl⟩
        simp [TypeTag.structUnmatched, randomnessPairs] at hp
      simp only [randomness_handler]
      rw [if_neg hneg0]
      exact ih b hrest

/-- A non-struct parameter anywhere in the list makes the handler fail with
`UnexpectedTypeParameter`. -/
theorem coin_treasury_cap_handler_nonstruct (id : ObjectID) :
    ∀ (params : List TypeTag) (b : PublishResultBuilder),
      (∃ p ∈ params, p.isStruct = false) →
      coin_treasury_cap_handler b id params
        = .error (.unexpectedTypeParameter "CoinTreasury's type_params must contain only TypeTag::Struct") := by
  intro params
  induction params with
  | nil =>
    intro b h
    simp at h
  | cons p rest ih =>
    intro b h
    cases p with
    | nonStruct d => rfl
    | strct m n ps =>
      have hrest : ∃ q ∈ rest, q.isStruct = false := by
        rcases h with ⟨q, hq, hqf⟩
        rcases List.mem_cons.mp hq with rfl | hqr
        · simp [TypeTag.isStruct] at hqf
        · exact ⟨q, hqr, hqf⟩
      simp only [coin_treasury_cap_handler]
      exact ih _ hrest

/-- Struct parameters matching none of the handler's recognized pairs are
skipped: the handler returns the builder unchanged. -/
theorem coin_treasury_cap_handler_skip (id : ObjectID) :
    ∀ (params : List TypeTag) (b : PublishResultBuilder),
      (∀ p ∈ params, p.structUnmatched coinTreasuryCapPairs = true) →
      coin_treasury_cap_handler b id params = .ok b := by
  intro params
  induction params with
  | nil => intro b _; rfl
  | cons p rest ih =>
    intro b h
    have hp := h p (List.mem_cons_self p rest)
    cases p with
    | nonStruct d => simp [TypeTag.structUnmatched] at hp
    | strct m n ps =>
      have hrest : ∀ q ∈ rest, q.structUnmatched coinTreasuryCapPairs = true :=
        fun q hq => h q (List.mem_cons_of_mem _ hq)
      have hneg0 : ¬(m = "ljc" ∧ n = "LJC") := by
        rintro ⟨rfl, rfl⟩
        simp [TypeTag.structUnmatched, coinTreasuryCapPairs] at hp
      simp only [coin_treasury_cap_handler]
      rw [if_neg hneg0]
      exact ih b hrest

/-- C7: in every type-specific classifier handler, a parameter list holding
any non-struct generic parameter makes the handler fail with
`UnexpectedTypeParameter`; a parameter list of struct-shaped parameters
matching none of that handler's recognized (module, name) pairs is skipped:
the handler succeeds with the builder unchanged, setting no field. -/
theorem handlers_param_rules (b : PublishResultBuilder) (id : ObjectID)
    (params : List TypeTag) :
    ((∃ p ∈ params, p.isStruct = false) →
      admin_cap_handler b id params = .error (.unexpectedTypeParameter
        "AdminCap's type_params must contain only TypeTag::Struct") ∧
      mint_config_handler b id params = .error (.unexpectedTypeParameter
        "MintConfig's type_params must contain only TypeTag::Struct") ∧
      registry_handler b id params = .error (.unexpectedTypeParameter
        "Registry's type_params must contain only TypeTag::Struct") ∧
      randomness_handler b id params = .error (.unexpectedTypeParameter
        "Randomness's type_params must contain only TypeTag::Struct") ∧
      coin_treasury_cap_handler b id params = .error (.unexpectedTypeParameter
        "CoinTreasury's type_params must contain only TypeTag::Struct")) ∧
    ((∀ p ∈ params, p.structUnmatched adminCapPairs = true) →
      admin_cap_handler b id params = .ok b) ∧
    ((∀ p ∈ params, p.structUnmatched mintConfigPairs = true) →
      mint_config_handler b id params = .ok b) ∧
    ((∀ p ∈ params, p.structUnmatched registryPairs = true) →
      registry_handler b id params = .ok b) ∧
    ((∀ p ∈ params, p.structUnmatched randomnessPairs = true) →
      randomness_handler b id params = .ok b) ∧
    ((∀ p ∈ params, p.structUnmatched coinTreasuryCapPairs = true) →
      coin_treasury_cap_handler b id params = .ok b) := by
  refine ⟨?_, ?_, ?_, ?_, ?_, ?_⟩
  · intro h
    exact ⟨admin_cap_handler_nonstruct id params b h,
      mint_config_handler_nonstruct id params b h,
      registry_handler_nonstruct id params b h,
      randomness_handler_nonstruct id params b h,
      coin_treasury_cap_handler_nonstruct id params b h⟩
  · exact admin_cap_handler_skip id params b
  · exact mint_config_handler_skip id params b
  · exact registry_handler_skip id params b
  · exact randomness_handler_skip id params b
  · exact coin_treasury_cap_handler_skip id params b
